import Mathlib

/-!
Verification development for the pipeline waiting/collection engine in
`src/child.rs` (`CmdChildren` / `CmdChild`).

The Rust code is shallowly embedded: each `CmdChild` variant carries
oracles for what the underlying operating system interaction would
return (the process exit status, the thread join outcome, stream
contents), and every operation returns, next to its Rust return value, a
`Trace` of its observable effects (informational log lines from the
stderr drain, lines printed to standard output, consolidated error-log
messages, which stages were waited and with which `is_last` flag,
streams handed to a `wait_with_pipe` callback, and processes killed).
A Rust `panic!` / `unwrap` failure is modelled by `PanicOr.panic`.
-/

/-- A `std::io::Error` as this file builds them: `Error::new(ErrorKind::Other, msg)`.
Only the message is observable in `child.rs`. -/
structure IOErr where
  msg : String
deriving DecidableEq, Repr

/-- A process `ExitStatus`: `code` is `status.code()` (none when terminated by a
signal), `display` is the `Display` rendering used by `status_to_io_error`'s
"terminated by" branch. -/
structure ExitStatus where
  code : Option Int
  display : String
deriving DecidableEq, Repr

/-- Rust `ExitStatus::success()`: the status is an exit with code 0. -/
def ExitStatus.success (s : ExitStatus) : Bool := s.code == some (0 : Int)

/-- An `os_pipe::PipeReader` endpoint: `bytes` is the raw content returned by
`read_to_end`, `lines` is the `BufReader::lines` view of the same content
(lossily decoded, read-error lines dropped by `filter_map(|l| l.ok())`),
`readErr` is a low-level error hit by `read_to_end`, if any. -/
structure PipeReader where
  bytes : List Nat := []
  lines : List String := []
  readErr : Option IOErr := none
deriving DecidableEq, Repr

/-- Outcome of a computation that can `panic!` (or `unwrap` a failure). -/
inductive PanicOr (α : Type) where
  | panic (msg : String)
  | value (val : α)
deriving DecidableEq, Repr

deriving instance DecidableEq for Except

/-- Oracles for a `std::process::Child`: the result of `child.wait()`, the
result of `child.wait_with_output()` (status plus captured stdout bytes), and
the `child.stdout` pipe endpoint. -/
structure ProcHandle where
  waitResult : Except IOErr ExitStatus
  waitOutputResult : Except IOErr (ExitStatus × List Nat)
  stdout : Option PipeReader := none
deriving DecidableEq, Repr

/-- The `CmdChild` enum of `child.rs`: an external process, a background
thread (its `JoinHandle<CmdResult>` join outcome modelled by a `PanicOr`),
or an already-completed synchronous stage. -/
inductive CmdChild where
  | Proc (child : ProcHandle) (cmd : String) (stderr : Option (List String))
      (ignore_error : Bool)
  | ThreadFn (child : PanicOr (Except IOErr Unit)) (cmd : String)
      (stdout : Option PipeReader) (stderr : Option (List String))
      (ignore_error : Bool)
  | SyncFn (cmd : String) (stdout : Option PipeReader)
      (stderr : Option (List String))
deriving DecidableEq, Repr

/-- The `cmd` label field of a stage. -/
def CmdChild.cmd : CmdChild → String
  | .Proc _ c _ _ => c
  | .ThreadFn _ c _ _ _ => c
  | .SyncFn c _ _ => c

/-- The `ignore_error` flag of a stage (`SyncFn` has none, i.e. `false`). -/
def CmdChild.ignoreError : CmdChild → Bool
  | .Proc _ _ _ ig => ig
  | .ThreadFn _ _ _ _ ig => ig
  | .SyncFn _ _ _ => false

/-- Observable effects of running one of the wait operations. -/
structure Trace where
  info : List String := []
  printed : List String := []
  errors : List String := []
  waited : List (String × Bool) := []
  callbacks : List PipeReader := []
  kills : List String := []
deriving DecidableEq, Repr

/-- The empty trace. -/
def Trace.nil : Trace := {}

/-- Field-wise concatenation of traces, in program order. -/
def Trace.app (a b : Trace) : Trace :=
  { info := a.info ++ b.info
    printed := a.printed ++ b.printed
    errors := a.errors ++ b.errors
    waited := a.waited ++ b.waited
    callbacks := a.callbacks ++ b.callbacks
    kills := a.kills ++ b.kills }

instance : Append Trace := ⟨Trace.app⟩

/-- Lines forwarded to the informational log by `log_stderr_output`. -/
def drainLines : Option (List String) → List String
  | none => []
  | some ls => ls

/-- Lines printed by `print_stdout_output` (nothing when the stream is absent). -/
def passthroughLines : Option PipeReader → List String
  | none => []
  | some r => r.lines

/-- Model of `read_to_end` on an optional pipe endpoint, as `wait_with_output` performs
it: absent stream reads as empty. -/
def readToEnd : Option PipeReader → Except IOErr (List Nat)
  | none => .ok []
  | some r =>
    match r.readErr with
    | some e => .error e
    | none => .ok r.bytes

/-- The pipefail flag: `std::env::var("CMD_LIB_PIPEFAIL") != Ok("0".into())`;
`env` is the variable's value, `none` when absent. -/
def pipefail (env : Option String) : Bool := decide (env ≠ some "0")

/-- Model of `CmdChild::status_to_io_error`. -/
def status_to_io_error (status : ExitStatus) (command : String) : IOErr :=
  match status.code with
  | some code => { msg := command ++ "; status code: " ++ toString code }
  | none => { msg := command ++ "; terminated by " ++ status.display }

/-- Model of `CmdChild::wait(self, is_last)`: reads the pipefail flag, drains stderr,
blocks on the stage, and applies the failure-escalation policy of `child.rs`
lines 126-189. -/
def CmdChild.wait (self : CmdChild) (is_last : Bool) (env : Option String) :
    Trace × Except IOErr Unit :=
  let pf := pipefail env
  match self with
  | .Proc child cmd stderr ignore_error =>
    match child.waitResult with
    | .error e =>
      ({ info := drainLines stderr, waited := [(cmd, is_last)] }, .error e)
    | .ok status =>
      let t : Trace :=
        { info := drainLines stderr
          printed := passthroughLines child.stdout
          waited := [(cmd, is_last)] }
      if !ignore_error && !status.success && (is_last || pf) then
        (t, .error (status_to_io_error status (cmd ++ " exited with error")))
      else
        (t, .ok ())
  | .ThreadFn child cmd _ stderr ignore_error =>
    let t : Trace := { info := drainLines stderr, waited := [(cmd, is_last)] }
    if ignore_error then
      (t, .ok ())
    else
      match child with
      | .panic m =>
        if is_last || pf then
          (t, .error { msg := cmd ++ " thread exited with error: " ++ m })
        else
          (t, .ok ())
      | .value result =>
        match result with
        | .error e => if is_last || pf then (t, .error e) else (t, .ok ())
        | .ok _ => (t, .ok ())
  | .SyncFn cmd stdout stderr =>
    ({ info := drainLines stderr
       printed := passthroughLines stdout
       waited := [(cmd, is_last)] }, .ok ())

/-- Model of `CmdChild::wait_with_output(self)`: capture the stage's output bytes,
`child.rs` lines 191-240.  The `ThreadFn` arm's `child.join().unwrap()?`
panics when the thread itself panicked. -/
def CmdChild.wait_with_output (self : CmdChild) :
    Trace × PanicOr (Except IOErr (List Nat)) :=
  match self with
  | .Proc child cmd stderr ignore_error =>
    let t : Trace := { info := drainLines stderr }
    match child.waitOutputResult with
    | .error e => (t, .value (.error e))
    | .ok (status, outBytes) =>
      if !ignore_error && !status.success then
        (t, .value (.error (status_to_io_error status (cmd ++ " exited with error"))))
      else
        (t, .value (.ok outBytes))
  | .ThreadFn child _ stdout stderr _ =>
    let t : Trace := { info := drainLines stderr }
    match readToEnd stdout with
    | .error e => (t, .value (.error e))
    | .ok buf =>
      match child with
      | .panic m => (t, .panic m)
      | .value (.error e) => (t, .value (.error e))
      | .value (.ok _) => (t, .value (.ok buf))
  | .SyncFn _ stdout stderr =>
    let t : Trace := { info := drainLines stderr }
    match readToEnd stdout with
    | .error e => (t, .value (.error e))
    | .ok buf => (t, .value (.ok buf))

/-- Model of `CmdChild::get_full_cmd`: every stage's label joined with a pipe separator. -/
def get_full_cmd (children : List CmdChild) : String :=
  String.intercalate " | " (children.map CmdChild.cmd)

/-- The replacement character U+FFFD used by lossy UTF-8 decoding. -/
def replChar : Char := Char.ofNat 0xFFFD

/-- Guard on the first continuation byte of a 3-byte sequence, excluding
overlong encodings and surrogates. -/
def utf8Lead3Ok (b b1 : Nat) : Bool :=
  (b != 0xE0 || b1 ≥ 0xA0) && (b != 0xED || b1 ≤ 0x9F)

/-- Guard on the first continuation byte of a 4-byte sequence, excluding
overlong encodings and code points above U+10FFFF. -/
def utf8Lead4Ok (b b1 : Nat) : Bool :=
  (b != 0xF0 || b1 ≥ 0x90) && (b != 0xF4 || b1 ≤ 0x8F)

/-- A UTF-8 continuation byte. -/
def utf8Cont (b : Nat) : Bool := 0x80 ≤ b && b ≤ 0xBF

/-- Fuel-indexed UTF-8 decoder with the substitution-of-maximal-subparts
policy of `String::from_utf8_lossy` (derived from `Utf8Error::error_len`):
an ill-formed subsequence is replaced by exactly one U+FFFD per maximal
subpart — an invalid lead consumes one byte; a valid lead whose (k+1)-st byte
breaks the sequence consumes the lead and the k valid continuation bytes and
resumes at the offending byte; a sequence truncated by the end of input is
one replacement (so `F0 90 80 57` decodes to U+FFFD followed by 'W').
Each step consumes at least one byte, so fuel equal to the list length
suffices. -/
def utf8DecodeFuel : Nat → List Nat → List Char
  | 0, _ => []
  | _ + 1, [] => []
  | fuel + 1, b :: rest =>
    if b < 0x80 then
      Char.ofNat b :: utf8DecodeFuel fuel rest
    else if 0xC2 ≤ b && b ≤ 0xDF then
      match rest with
      | [] => [replChar]
      | b1 :: rest1 =>
        if utf8Cont b1 then
          Char.ofNat ((b - 0xC0) * 64 + (b1 - 0x80)) :: utf8DecodeFuel fuel rest1
        else
          replChar :: utf8DecodeFuel fuel rest
    else if 0xE0 ≤ b && b ≤ 0xEF then
      match rest with
      | [] => [replChar]
      | b1 :: rest1 =>
        if utf8Cont b1 && utf8Lead3Ok b b1 then
          match rest1 with
          | [] => [replChar]
          | b2 :: rest2 =>
            if utf8Cont b2 then
              Char.ofNat ((b - 0xE0) * 4096 + (b1 - 0x80) * 64 + (b2 - 0x80)) ::
                utf8DecodeFuel fuel rest2
            else
              replChar :: utf8DecodeFuel fuel rest1
        else
          replChar :: utf8DecodeFuel fuel rest
    else if 0xF0 ≤ b && b ≤ 0xF4 then
      match rest with
      | [] => [replChar]
      | b1 :: rest1 =>
        if utf8Cont b1 && utf8Lead4Ok b b1 then
          match rest1 with
          | [] => [replChar]
          | b2 :: rest2 =>
            if utf8Cont b2 then
              match rest2 with
              | [] => [replChar]
              | b3 :: rest3 =>
                if utf8Cont b3 then
                  Char.ofNat ((b - 0xF0) * 262144 + (b1 - 0x80) * 4096 +
                      (b2 - 0x80) * 64 + (b3 - 0x80)) :: utf8DecodeFuel fuel rest3
                else
                  replChar :: utf8DecodeFuel fuel rest2
            else
              replChar :: utf8DecodeFuel fuel rest1
        else
          replChar :: utf8DecodeFuel fuel rest
    else
      replChar :: utf8DecodeFuel fuel rest

/-- Model of `String::from_utf8_lossy(bytes).to_string()`. -/
def utf8Lossy (bs : List Nat) : String := String.mk (utf8DecodeFuel bs.length bs)

/-- UTF-8 encoding of one character, used to write concrete byte inputs. -/
def utf8EncodeChar (c : Char) : List Nat :=
  let n := c.toNat
  if n < 0x80 then [n]
  else if n < 0x800 then [0xC0 + n / 64, 0x80 + n % 64]
  else if n < 0x10000 then
    [0xE0 + n / 4096, 0x80 + (n / 64) % 64, 0x80 + n % 64]
  else
    [0xF0 + n / 262144, 0x80 + (n / 4096) % 64, 0x80 + (n / 64) % 64, 0x80 + n % 64]

/-- UTF-8 encoding of a string. -/
def strBytes (s : String) : List Nat := (s.data.map utf8EncodeChar).flatten

/-- The post-processing of captured text in `wait_fun_result_nolog`:
`if ret.ends_with('\n') { ret.pop(); }` — drop exactly one trailing newline
character if present. -/
def stripNewline (s : String) : String :=
  match s.data.getLast? with
  | some c => if c = '\n' then String.mk s.data.dropLast else s
  | _ => s

/-- Model of `CmdChildren::wait_children` expressed on the reversed stage list: the
Rust loop pops stages from the end of the vector and waits each with
`is_last = false`, stopping at (and returning) the first failure via `?`.
Returns the stages still in the vector (reversed), the trace, and the result. -/
def waitChildrenRev (env : Option String) :
    List CmdChild → List CmdChild × Trace × Except IOErr Unit
  | [] => ([], Trace.nil, .ok ())
  | c :: rest =>
    match c.wait false env with
    | (t, .error e) => (rest, t, .error e)
    | (t, .ok _) =>
      match waitChildrenRev env rest with
      | (rem, t2, r2) => (rem, t ++ t2, r2)

/-- Model of `CmdChildren::wait_children` on the vector in insertion order. -/
def wait_children (env : Option String) (children : List CmdChild) :
    List CmdChild × Trace × Except IOErr Unit :=
  match waitChildrenRev env children.reverse with
  | (remRev, t, r) => (remRev.reverse, t, r)

/-- Model of `CmdChildren::wait_cmd_result_nolog`: pop the last stage (`unwrap` panics
on an empty pipeline), wait it with `is_last = true`, escalate its failure via
`?`, then wait the remaining stages.  Returns the stages left in the vector
next to the result. -/
def wait_cmd_result_nolog (env : Option String) (children : List CmdChild) :
    Trace × PanicOr (List CmdChild × Except IOErr Unit) :=
  match children.getLast? with
  | none => (Trace.nil, .panic "called Option.unwrap on a None value")
  | some last =>
    match last.wait true env with
    | (t, .error e) => (t, .value (children.dropLast, .error e))
    | (t, .ok _) =>
      match waitChildrenRev env children.dropLast.reverse with
      | (remRev, t2, r2) => (t ++ t2, .value (remRev.reverse, r2))

/-- Model of `CmdChildren::wait_cmd_result`: run the nolog variant, and on failure log
one `error!` message built from `get_full_cmd` of the vector as it is after
the nolog run. -/
def wait_cmd_result (env : Option String) (children : List CmdChild) :
    Trace × PanicOr (List CmdChild × Except IOErr Unit) :=
  match wait_cmd_result_nolog env children with
  | (t, .panic m) => (t, .panic m)
  | (t, .value (rem, .ok u)) => (t, .value (rem, .ok u))
  | (t, .value (rem, .error e)) =>
    ({ t with errors := t.errors ++
        ["Running " ++ get_full_cmd rem ++ " failed, Error: " ++ e.msg] },
     .value (rem, .error e))

/-- Model of `CmdChildren::wait_fun_result_nolog`: pop the last stage, capture its
output with `wait_with_output`; on capture failure best-effort-wait the rest
discarding their errors and return the capture error; on success decode
lossily, strip one trailing newline, then wait the rest (escalating via `?`). -/
def wait_fun_result_nolog (env : Option String) (children : List CmdChild) :
    Trace × PanicOr (List CmdChild × Except IOErr String) :=
  match children.getLast? with
  | none => (Trace.nil, .panic "called Option.unwrap on a None value")
  | some last =>
    match last.wait_with_output with
    | (t, .panic m) => (t, .panic m)
    | (t, .value (.error e)) =>
      match waitChildrenRev env children.dropLast.reverse with
      | (remRev, t2, _) => (t ++ t2, .value (remRev.reverse, .error e))
    | (t, .value (.ok outBytes)) =>
      let ret := stripNewline (utf8Lossy outBytes)
      match waitChildrenRev env children.dropLast.reverse with
      | (remRev, t2, .error e) => (t ++ t2, .value (remRev.reverse, .error e))
      | (remRev, t2, .ok _) => (t ++ t2, .value (remRev.reverse, .ok ret))

/-- Model of `CmdChildren::wait_fun_result`: the nolog variant plus the consolidated
`error!` message on failure, built after the vector has been drained. -/
def wait_fun_result (env : Option String) (children : List CmdChild) :
    Trace × PanicOr (List CmdChild × Except IOErr String) :=
  match wait_fun_result_nolog env children with
  | (t, .panic m) => (t, .panic m)
  | (t, .value (rem, .ok s)) => (t, .value (rem, .ok s))
  | (t, .value (rem, .error e)) =>
    ({ t with errors := t.errors ++
        ["Running " ++ get_full_cmd rem ++ " failed, Error: " ++ e.msg] },
     .value (rem, .error e))

/-- Model of `CmdChildren::wait_with_pipe`: pop the last stage; for a process stage
hand its stdout (when present) to the callback and then kill the process,
then join the stderr drain; panic on a thread stage; for a completed stage
join the drain first and then hand any ready stdout to the callback.  Finally
best-effort-wait the remaining stages, discarding errors. -/
def wait_with_pipe (env : Option String) (children : List CmdChild) :
    Trace × PanicOr (List CmdChild) :=
  match children.getLast? with
  | none => (Trace.nil, .panic "called Option.unwrap on a None value")
  | some last =>
    match last with
    | .Proc child cmd stderr _ =>
      let tcb : Trace :=
        match child.stdout with
        | some r => { callbacks := [r], kills := [cmd] }
        | none => {}
      let tdrain : Trace := { info := drainLines stderr }
      match waitChildrenRev env children.dropLast.reverse with
      | (remRev, t2, _) => (tcb ++ tdrain ++ t2, .value remRev.reverse)
    | .ThreadFn _ _ _ _ _ => (Trace.nil, .panic "should not wait pipe on thread")
    | .SyncFn _ stdout stderr =>
      let tdrain : Trace := { info := drainLines stderr }
      let tcb : Trace :=
        match stdout with
        | some r => { callbacks := [r] }
        | none => {}
      match waitChildrenRev env children.dropLast.reverse with
      | (remRev, t2, _) => (tdrain ++ tcb ++ t2, .value remRev.reverse)

/-- Whether an `Except` is an error. -/
def isErr {ε α : Type} : Except ε α → Bool
  | .error _ => true
  | .ok _ => false

/-- The stage reports a failure of its own work: the process exited
unsuccessfully (an ExecutionFailure), or the background thread panicked or
returned a failure (a TaskFailure).  A low-level error of `child.wait()`
itself (an IOFailure) is not a stage failure in this sense, and a completed
`SyncFn` stage never fails. -/
def stageFails : CmdChild → Bool
  | .Proc child _ _ _ =>
    match child.waitResult with
    | .ok status => !status.success
    | .error _ => false
  | .ThreadFn child _ _ _ _ =>
    match child with
    | .panic _ => true
    | .value (.error _) => true
    | .value (.ok _) => false
  | .SyncFn _ _ _ => false

/-- Claim-side description (spec wording): wait the given stages one by one
with `isTerminal = false`, stopping at and returning the first failure
encountered; the input list is the remaining stages in reverse insertion
order. -/
def waitRemClaim (env : Option String) : List CmdChild → Trace × Except IOErr Unit
  | [] => (Trace.nil, .ok ())
  | c :: rest =>
    match c.wait false env with
    | (t, .error e) => (t, .error e)
    | (t, .ok _) =>
      match waitRemClaim env rest with
      | (t2, r2) => (t ++ t2, r2)

/-- Claim-side description (spec wording) of the status-path waitAll over a
pipeline with front stages `front` and terminal stage `last`: wait the
terminal stage first with `isTerminal = true`; on its failure return that
failure immediately; on success wait the remaining stages in reverse
insertion order, stopping at the first failure. -/
def waitAllClaim (env : Option String) (front : List CmdChild) (last : CmdChild) :
    Trace × Except IOErr Unit :=
  match last.wait true env with
  | (t, .error e) => (t, .error e)
  | (t, .ok _) =>
    match waitRemClaim env front.reverse with
    | (t2, r2) => (t ++ t2, r2)

/-- Concrete failing thread stage used to witness C1. -/
def w1Stage : CmdChild :=
  .ThreadFn (.value (.error { msg := "boom" })) "w1" none none false

/-- Concrete completed stage used to witness C2. -/
def w2Stage : CmdChild := .SyncFn "s" none none

/-- Concrete completed stage with output bytes "hello\n", witnessing C3. -/
def w3Stage : CmdChild :=
  .SyncFn "w3" (some { bytes := strBytes "hello\n", lines := [], readErr := none }) none

/-- Background-task stage with the ignore-error flag set whose task returned a
failure; used to refute C4 as stated. -/
def tfIgnored : CmdChild :=
  .ThreadFn (.value (.error { msg := "task failed" })) "thread" none none true

/-- A process stage exiting with the given code (no streams). -/
def procExit (cmd : String) (code : Int) : CmdChild :=
  .Proc { waitResult := .ok { code := some code, display := "" },
          waitOutputResult := .ok ({ code := some code, display := "" }, []),
          stdout := none } cmd none false

/-- Three-stage pipeline refuting C6 as stated: the terminal stage "c"'s
capture fails, the cleanup wait of "b" fails (pipefail enabled by default),
and stage "a" is then never waited. -/
def c6c : CmdChild :=
  .Proc { waitResult := .ok { code := some 0, display := "" },
          waitOutputResult := .error { msg := "capture failed" },
          stdout := none } "c" none false

/-- Failing process stage whose stdout pipe holds one line, refuting C7 as
stated. -/
def c7proc : CmdChild :=
  .Proc { waitResult := .ok { code := some 1, display := "" },
          waitOutputResult := .ok ({ code := some 1, display := "" }, []),
          stdout := some { bytes := [], lines := ["out"], readErr := none } }
    "p" none false

/-- Pipe endpoint holding two bytes, used to witness C8. -/
def w8Out : Option PipeReader := some { bytes := [104, 105], lines := [], readErr := none }

/-- Process handle without a stdout endpoint, used to witness C10. -/
def w10Handle : ProcHandle :=
  { waitResult := .ok { code := some 0, display := "" },
    waitOutputResult := .ok ({ code := some 0, display := "" }, []),
    stdout := none }

theorem wait_waited (c : CmdChild) (b : Bool) (env : Option String) :
    (c.wait b env).1.waited = [(c.cmd, b)] := by
  cases c with
  | Proc child cmd stderr ig =>
    simp only [CmdChild.wait, CmdChild.cmd]
    cases child.waitResult with
    | error e => rfl
    | ok status =>
      simp only []
      split
      · rfl
      · rfl
  | ThreadFn child cmd stdout stderr ig =>
    simp only [CmdChild.wait, CmdChild.cmd]
    split
    · rfl
    · cases child with
      | panic m =>
        simp only []
        split
        · rfl
        · rfl
      | value r =>
        cases r with
        | error e =>
          simp only []
          split
          · rfl
          · rfl
        | ok u => rfl
  | SyncFn cmd stdout stderr => rfl

theorem waitChildrenRev_eq_claim (env : Option String) (l : List CmdChild) :
    (waitChildrenRev env l).2 = waitRemClaim env l := by
  induction l with
  | nil => rfl
  | cons c rest ih =>
    simp only [waitChildrenRev, waitRemClaim]
    rcases h : c.wait false env with ⟨t, r⟩
    cases r with
    | error e => simp
    | ok u =>
      rcases h2 : waitChildrenRev env rest with ⟨rem, t2, r2⟩
      simp only []
      rw [← ih, h2]

theorem waitRemClaim_ok_iff (env : Option String) (l : List CmdChild) :
    (waitRemClaim env l).2 = .ok () ↔ ∀ c ∈ l, (c.wait false env).2 = .ok () := by
  induction l with
  | nil => simp [waitRemClaim]
  | cons c rest ih =>
    simp only [waitRemClaim, List.mem_cons]
    rcases h : c.wait false env with ⟨t, r⟩
    cases r with
    | error e =>
      simp only []
      constructor
      · intro hc; exact absurd hc (by simp)
      · intro hall
        have := hall c (Or.inl rfl)
        rw [h] at this
        exact absurd this (by simp)
    | ok u =>
      rcases h2 : waitRemClaim env rest with ⟨t2, r2⟩
      simp only []
      rw [h2] at ih
      simp only [] at ih
      constructor
      · intro hr x hx
        rcases hx with hx | hx
        · subst hx; rw [h]
        · exact ih.mp hr x hx
      · intro hall
        exact ih.mpr (fun x hx => hall x (Or.inr hx))

theorem trace_app_waited (a b : Trace) : (a ++ b).waited = a.waited ++ b.waited := rfl

theorem trace_app_info (a b : Trace) : (a ++ b).info = a.info ++ b.info := rfl

theorem trace_app_printed (a b : Trace) : (a ++ b).printed = a.printed ++ b.printed := rfl

/-- Maximal-subpart substitution: a four-byte sequence truncated after two
valid continuation bytes is one replacement character, as in the standard
library's own `from_utf8_lossy` example `b"Hello \xF0\x90\x80World"`. -/
theorem utf8Lossy_maximal_subpart_four :
    utf8Lossy ([0x48, 0x65, 0x6C, 0x6C, 0x6F, 0x20, 0xF0, 0x90, 0x80]
        ++ strBytes "World")
      = String.mk ([0x48, 0x65, 0x6C, 0x6C, 0x6F, 0x20].map Char.ofNat
          ++ [replChar] ++ "World".data) := by
  decide

/-- Maximal-subpart substitution: a three-byte sequence truncated after one
valid continuation byte at the end of input is one replacement character,
and a valid continuation followed by a non-continuation byte consumes only
the maximal subpart (one replacement, resuming at the offending byte). -/
theorem utf8Lossy_maximal_subpart_three :
    utf8Lossy [0x57, 0xE0, 0xA0] = String.mk ['W', replChar]
    ∧ utf8Lossy [0xE0, 0xA0, 0x41] = String.mk [replChar, 'A'] := by
  exact ⟨by decide, by decide⟩

/-- C1: a stage failure observed by `CmdChild::wait` (an unsuccessful process
exit, a thread panic or a thread-returned failure, with the stage's
ignore-error flag unset) escalates to the caller exactly when the stage is
terminal (`is_last`) or pipefail is enabled, pipefail being enabled exactly
when `CMD_LIB_PIPEFAIL` is absent or different from "0"; otherwise the wait
suppresses the failure and returns success. -/
theorem c1_status_wait_escalation (env : Option String) (c : CmdChild) (is_last : Bool)
    (hig : c.ignoreError = false) (hf : stageFails c = true) :
    isErr (c.wait is_last env).2 = (is_last || pipefail env)
    ∧ (pipefail env = true ↔ env ≠ some "0")
    ∧ ((is_last || pipefail env) = false → (c.wait is_last env).2 = .ok ()) := by
  have hmain : isErr (c.wait is_last env).2 = (is_last || pipefail env) := by
    cases c with
    | Proc child cmd stderr ig =>
      simp only [CmdChild.ignoreError] at hig
      subst hig
      simp only [stageFails] at hf
      cases hw : child.waitResult with
      | error e => rw [hw] at hf; simp at hf
      | ok status =>
        rw [hw] at hf
        have hf2 : status.success = false := by simpa using hf
        simp only [CmdChild.wait, hw]
        cases h : (is_last || pipefail env) <;> simp [h, isErr, hf2]
    | ThreadFn child cmd stdout stderr ig =>
      simp only [CmdChild.ignoreError] at hig
      subst hig
      simp only [stageFails] at hf
      simp only [CmdChild.wait, Bool.false_eq_true, if_false]
      cases child with
      | panic m =>
        cases h : (is_last || pipefail env) <;> simp [h, isErr]
      | value r =>
        cases r with
        | error e => cases h : (is_last || pipefail env) <;> simp [h, isErr]
        | ok u => simp at hf
    | SyncFn cmd stdout stderr => simp [stageFails] at hf
  refine ⟨hmain, by simp [pipefail], ?_⟩
  intro h
  rw [h] at hmain
  rcases hr : (c.wait is_last env).2 with e | u
  · rw [hr] at hmain; simp [isErr] at hmain
  · cases u; rfl

theorem c1_status_wait_escalation_witness :
    isErr (w1Stage.wait false (some "1")).2 = (false || pipefail (some "1"))
    ∧ (pipefail (some "1") = true ↔ (some "1" : Option String) ≠ some "0")
    ∧ ((false || pipefail (some "1")) = false →
        (w1Stage.wait false (some "1")).2 = .ok ()) :=
  c1_status_wait_escalation (some "1") w1Stage false (by decide) (by decide)

/-- C2: on a non-empty pipeline, `wait_cmd_result_nolog` behaves exactly as
the claim describes — it refines `waitAllClaim` (terminal stage first with
`isTerminal = true`; on its failure return immediately, the only waited stage
being the terminal one; on success wait the remaining stages in reverse
insertion order stopping at the first failure), and the overall result is
success exactly when every stage's wait succeeded. -/
theorem c2_wait_all_order (env : Option String) (cs : List CmdChild) (c : CmdChild) :
    (∃ rem, wait_cmd_result_nolog env (cs ++ [c])
        = ((waitAllClaim env cs c).1, .value (rem, (waitAllClaim env cs c).2)))
    ∧ (waitAllClaim env cs c).1.waited.head? = some (c.cmd, true)
    ∧ (∀ e, (c.wait true env).2 = .error e →
        wait_cmd_result_nolog env (cs ++ [c])
          = ((c.wait true env).1, .value (cs, .error e))
          ∧ (wait_cmd_result_nolog env (cs ++ [c])).1.waited = [(c.cmd, true)])
    ∧ ((waitAllClaim env cs c).2 = .ok () ↔
        ((c.wait true env).2 = .ok () ∧ ∀ x ∈ cs, (x.wait false env).2 = .ok ())) := by
  have hw := wait_waited c true env
  rcases hc : c.wait true env with ⟨t, r⟩
  rw [hc] at hw
  have hw2 : t.waited = [(c.cmd, true)] := hw
  cases r with
  | error e =>
    have hnolog : wait_cmd_result_nolog env (cs ++ [c]) = (t, .value (cs, .error e)) := by
      simp only [wait_cmd_result_nolog, List.getLast?_concat, List.dropLast_concat, hc]
    have hclaim : waitAllClaim env cs c = (t, .error e) := by
      simp only [waitAllClaim, hc]
    refine ⟨⟨cs, by rw [hnolog, hclaim]⟩, by rw [hclaim]; simp [hw2], ?_, ?_⟩
    · intro e2 he2
      have h3 : e = e2 := by injection he2
      subst h3
      exact ⟨by rw [hnolog], by rw [hnolog]; exact hw2⟩
    · rw [hclaim]
      constructor
      · intro hcon; exact absurd hcon (by simp)
      · rintro ⟨hok, -⟩; exact absurd hok (by simp)
  | ok u =>
    cases u
    rcases hrec : waitChildrenRev env cs.reverse with ⟨remRev, t2, r2⟩
    have hrem : waitRemClaim env cs.reverse = (t2, r2) := by
      rw [← waitChildrenRev_eq_claim, hrec]
    have hnolog : wait_cmd_result_nolog env (cs ++ [c])
        = (t ++ t2, .value (remRev.reverse, r2)) := by
      simp only [wait_cmd_result_nolog, List.getLast?_concat, List.dropLast_concat, hc, hrec]
    have hclaim : waitAllClaim env cs c = (t ++ t2, r2) := by
      simp only [waitAllClaim, hc, hrem]
    refine ⟨⟨remRev.reverse, by rw [hnolog, hclaim]⟩, ?_, ?_, ?_⟩
    · rw [hclaim]
      show (t ++ t2).waited.head? = some (c.cmd, true)
      rw [trace_app_waited, hw2]
      rfl
    · intro e2 he2
      exact absurd he2 (by simp)
    · rw [hclaim]
      have hiff := waitRemClaim_ok_iff env cs.reverse
      rw [hrem] at hiff
      simp only [List.mem_reverse] at hiff
      show r2 = Except.ok () ↔ _
      constructor
      · intro hr2; exact ⟨rfl, hiff.mp hr2⟩
      · rintro ⟨-, hall⟩; exact hiff.mpr hall

theorem c2_wait_all_order_witness :
    (∃ rem, wait_cmd_result_nolog none ([] ++ [w2Stage])
        = ((waitAllClaim none [] w2Stage).1,
           .value (rem, (waitAllClaim none [] w2Stage).2)))
    ∧ (waitAllClaim none [] w2Stage).1.waited.head? = some (w2Stage.cmd, true)
    ∧ (∀ e, (w2Stage.wait true none).2 = .error e →
        wait_cmd_result_nolog none ([] ++ [w2Stage])
          = ((w2Stage.wait true none).1, .value ([], .error e))
          ∧ (wait_cmd_result_nolog none ([] ++ [w2Stage])).1.waited
              = [(w2Stage.cmd, true)])
    ∧ ((waitAllClaim none [] w2Stage).2 = .ok () ↔
        ((w2Stage.wait true none).2 = .ok ()
          ∧ ∀ x ∈ ([] : List CmdChild), (x.wait false none).2 = .ok ())) :=
  c2_wait_all_order none [] w2Stage

/-- C3: when the terminal stage's capture succeeds with some bytes and the
remaining stages' waits all succeed, `wait_fun_result_nolog` returns those
bytes decoded lossily to text with exactly one trailing newline removed if
present, the text otherwise unchanged; concretely, bytes "hello\n" yield
"hello", "hello" yields "hello", and empty bytes yield the empty string. -/
theorem c3_capture_text (env : Option String) (cs : List CmdChild) (c : CmdChild)
    (t : Trace) (outBytes : List Nat)
    (hcap : c.wait_with_output = (t, .value (.ok outBytes)))
    (hrest : ∀ x ∈ cs, (x.wait false env).2 = .ok ()) :
    (∃ rem tr, wait_fun_result_nolog env (cs ++ [c])
        = (tr, .value (rem, .ok (stripNewline (utf8Lossy outBytes)))))
    ∧ stripNewline (utf8Lossy (strBytes "hello\n")) = "hello"
    ∧ stripNewline (utf8Lossy (strBytes "hello")) = "hello"
    ∧ stripNewline (utf8Lossy []) = "" := by
  refine ⟨?_, by decide, by decide, by decide⟩
  rcases hrec : waitChildrenRev env cs.reverse with ⟨remRev, t2, r2⟩
  have hok : (waitRemClaim env cs.reverse).2 = .ok () :=
    (waitRemClaim_ok_iff env cs.reverse).mpr
      (fun x hx => hrest x (List.mem_reverse.mp hx))
  have h := waitChildrenRev_eq_claim env cs.reverse
  rw [hrec] at h
  rw [← h] at hok
  have hr2 : r2 = .ok () := hok
  refine ⟨remRev.reverse, t ++ t2, ?_⟩
  simp only [wait_fun_result_nolog, List.getLast?_concat, List.dropLast_concat,
    hcap, hrec, hr2]

theorem c3_capture_text_witness :
    (∃ rem tr, wait_fun_result_nolog none ([] ++ [w3Stage])
        = (tr, .value (rem, .ok (stripNewline (utf8Lossy (strBytes "hello\n"))))))
    ∧ stripNewline (utf8Lossy (strBytes "hello\n")) = "hello"
    ∧ stripNewline (utf8Lossy (strBytes "hello")) = "hello"
    ∧ stripNewline (utf8Lossy []) = "" :=
  c3_capture_text none [] w3Stage { info := [] } (strBytes "hello\n")
    (by rfl) (by simp)

/-- C4 counterexample: a background-task stage with ignore-error set still has
its TaskFailure reported by `wait_with_output` — the `ThreadFn` arm of
`wait_with_output` never consults the flag — so ignore-error does not
suppress failures unconditionally in both operations. -/
theorem c4_counterexample :
    tfIgnored.ignoreError = true
    ∧ (tfIgnored.wait_with_output).2 = .value (.error { msg := "task failed" }) := by
  constructor
  · rfl
  · rfl

/-- C4 amended: the ignore-error flag suppresses a stage's
ExecutionFailure/TaskFailure unconditionally in `wait` (any position, any
pipefail setting) and in `wait_with_output` for a process stage; but in
`wait_with_output` for a background-task stage the flag is not consulted, and
a task-returned failure propagates to the caller. -/
theorem c4_ignore_error_scope (env : Option String) (is_last : Bool) (c : CmdChild)
    (hig : c.ignoreError = true) :
    (stageFails c = true → (c.wait is_last env).2 = .ok ())
    ∧ (∀ child cmd stderr status outBytes, c = CmdChild.Proc child cmd stderr true →
        child.waitOutputResult = .ok (status, outBytes) →
        (c.wait_with_output).2 = .value (.ok outBytes))
    ∧ (∀ join cmd stdout stderr e buf, c = CmdChild.ThreadFn join cmd stdout stderr true →
        readToEnd stdout = .ok buf → join = PanicOr.value (.error e) →
        (c.wait_with_output).2 = .value (.error e)) := by
  refine ⟨?_, ?_, ?_⟩
  · intro hf
    cases c with
    | Proc child cmd stderr ig =>
      simp only [CmdChild.ignoreError] at hig
      subst hig
      simp only [stageFails] at hf
      cases hw : child.waitResult with
      | error e => rw [hw] at hf; simp at hf
      | ok status =>
        simp only [CmdChild.wait, hw]
        simp
    | ThreadFn child cmd stdout stderr ig =>
      simp only [CmdChild.ignoreError] at hig
      subst hig
      simp [CmdChild.wait]
    | SyncFn cmd stdout stderr => simp [CmdChild.wait]
  · intro child cmd stderr status outBytes hc hout
    subst hc
    simp only [CmdChild.wait_with_output, hout]
    simp
  · intro join cmd stdout stderr e buf hc hread hj
    subst hc
    subst hj
    simp only [CmdChild.wait_with_output, hread]

theorem c4_ignore_error_scope_witness :
    (stageFails tfIgnored = true → (tfIgnored.wait false none).2 = .ok ())
    ∧ (∀ child cmd stderr status outBytes,
        tfIgnored = CmdChild.Proc child cmd stderr true →
        child.waitOutputResult = .ok (status, outBytes) →
        (tfIgnored.wait_with_output).2 = .value (.ok outBytes))
    ∧ (∀ join cmd stdout stderr e buf,
        tfIgnored = CmdChild.ThreadFn join cmd stdout stderr true →
        readToEnd stdout = .ok buf → join = PanicOr.value (.error e) →
        (tfIgnored.wait_with_output).2 = .value (.error e)) :=
  c4_ignore_error_scope none false tfIgnored (by decide)

/-- C5 (code bug): `wait_cmd_result` logs its consolidated error with
`get_full_cmd(&self.0)` only after `wait_cmd_result_nolog` has popped the
terminal stage (and every successfully waited stage) out of the vector, so
the logged pipeline identification misses those stages.  On the one-stage
pipeline ["cat"] whose process exits 1 the log line carries an empty
pipeline label instead of "cat" (the full pipeline's label), and on
["a", "b"] with the terminal "b" failing the log line carries only "a". -/
theorem c5_log_missing_labels :
    (wait_cmd_result none [procExit "cat" 1]).1.errors
        = ["Running  failed, Error: cat exited with error; status code: 1"]
    ∧ get_full_cmd [procExit "cat" 1] = "cat"
    ∧ (wait_cmd_result none [procExit "a" 0, procExit "b" 1]).1.errors
        = ["Running a failed, Error: b exited with error; status code: 1"]
    ∧ get_full_cmd [procExit "a" 0, procExit "b" 1] = "a | b" := by
  refine ⟨by rfl, by rfl, by rfl, by rfl⟩

/-- C6 counterexample: when the terminal stage's capture fails, the cleanup
pass stops at the first failing cleanup wait, so not every remaining stage is
waited: here only "b" is waited and "a" never is, although the original
capture error is still the one returned. -/
theorem c6_counterexample :
    (wait_fun_result_nolog none [procExit "a" 0, procExit "b" 1, c6c]).1.waited
        = [("b", false)]
    ∧ (wait_fun_result_nolog none [procExit "a" 0, procExit "b" 1, c6c]).2
        = .value ([procExit "a" 0], .error { msg := "capture failed" }) := by
  refine ⟨by rfl, by rfl⟩

/-- C6 amended: when the terminal stage's capture fails, the remaining stages
are best-effort-waited in reverse insertion order only up to (and including)
the first failing cleanup wait — stages before it in insertion order are left
unwaited — and any error from that cleanup pass is discarded: the operation
returns the original capture error. -/
theorem c6_cleanup_discards_errors (env : Option String) (cs : List CmdChild)
    (c : CmdChild) (t : Trace) (e : IOErr)
    (hcap : c.wait_with_output = (t, .value (.error e))) :
    ∃ rem, wait_fun_result_nolog env (cs ++ [c])
        = (t ++ (waitRemClaim env cs.reverse).1, .value (rem, .error e)) := by
  rcases hrec : waitChildrenRev env cs.reverse with ⟨remRev, t2, r2⟩
  have h := waitChildrenRev_eq_claim env cs.reverse
  rw [hrec] at h
  refine ⟨remRev.reverse, ?_⟩
  have ht2 : (waitRemClaim env cs.reverse).1 = t2 := by rw [← h]
  rw [ht2]
  simp only [wait_fun_result_nolog, List.getLast?_concat, List.dropLast_concat,
    hcap, hrec]

theorem c6_cleanup_discards_errors_witness :
    ∃ rem, wait_fun_result_nolog none ([procExit "a" 0, procExit "b" 1] ++ [c6c])
        = ({ info := [] } ++
            (waitRemClaim none [procExit "a" 0, procExit "b" 1].reverse).1,
           .value (rem, .error { msg := "capture failed" })) :=
  c6_cleanup_discards_errors none [procExit "a" 0, procExit "b" 1] c6c
    { info := [] } { msg := "capture failed" } (by rfl)

/-- C7 counterexample: `CmdChild::wait` calls `print_stdout_output` before the
failure check, so on a terminal process stage that exits 1 the wait both
produces an execution-failure outcome and passes the stdout line through —
the passthrough is not restricted to the non-failure case. -/
theorem c7_counterexample :
    isErr ((c7proc.wait true none).2) = true
    ∧ (c7proc.wait true none).1.printed = ["out"] := by
  refine ⟨by rfl, by rfl⟩

/-- C7 amended: on a process stage the primary stream is passed through
line-by-line exactly when the blocking `child.wait()` returned an exit status
— i.e. after the blocking wait completes, regardless of whether an
execution-failure outcome is then produced — and is skipped only when the
blocking wait itself returns an error. -/
theorem c7_passthrough_after_wait (child : ProcHandle) (cmd : String)
    (stderr : Option (List String)) (ig is_last : Bool) (env : Option String) :
    ((CmdChild.Proc child cmd stderr ig).wait is_last env).1.printed
      = match child.waitResult with
        | .ok _ => passthroughLines child.stdout
        | .error _ => [] := by
  simp only [CmdChild.wait]
  cases child.waitResult with
  | error e => rfl
  | ok status =>
    simp only []
    split
    · rfl
    · rfl

/-- C8: for a background-task stage, `wait_with_output` first reads the
task's output stream to completion (a stream read error is returned without
consulting the join outcome), then joins the task; a task-returned failure
always propagates — the function consults neither the pipefail flag (it takes
no environment) nor the ignore-error flag — and the captured bytes are
returned exactly when the task succeeded. -/
theorem c8_thread_capture (join : PanicOr (Except IOErr Unit)) (cmd : String)
    (stdout : Option PipeReader) (stderr : Option (List String)) (ig : Bool) :
    (∀ buf, readToEnd stdout = .ok buf →
        (∀ e, join = .value (.error e) →
          ((CmdChild.ThreadFn join cmd stdout stderr ig).wait_with_output).2
            = .value (.error e))
        ∧ (join = .value (.ok ()) →
          ((CmdChild.ThreadFn join cmd stdout stderr ig).wait_with_output).2
            = .value (.ok buf)))
    ∧ (∀ e, readToEnd stdout = .error e →
        ((CmdChild.ThreadFn join cmd stdout stderr ig).wait_with_output).2
          = .value (.error e))
    ∧ (∀ buf, ((CmdChild.ThreadFn join cmd stdout stderr ig).wait_with_output).2
          = .value (.ok buf) →
        join = .value (.ok ()) ∧ readToEnd stdout = .ok buf) := by
  refine ⟨?_, ?_, ?_⟩
  · intro buf hread
    constructor
    · intro e hj
      subst hj
      simp only [CmdChild.wait_with_output, hread]
    · intro hj
      subst hj
      simp only [CmdChild.wait_with_output, hread]
  · intro e hread
    simp only [CmdChild.wait_with_output, hread]
  · intro buf hres
    rcases hread : readToEnd stdout with e | buf2
    · simp only [CmdChild.wait_with_output, hread] at hres
      simp at hres
    · simp only [CmdChild.wait_with_output, hread] at hres
      cases join with
      | panic m => simp at hres
      | value r =>
        cases r with
        | error e => simp at hres
        | ok u =>
          cases u
          simp only [PanicOr.value.injEq, Except.ok.injEq] at hres
          subst hres
          exact ⟨rfl, rfl⟩

theorem c8_thread_capture_witness :
    (∀ buf, readToEnd w8Out = .ok buf →
        (∀ e, PanicOr.value (α := Except IOErr Unit) (.ok ()) = .value (.error e) →
          ((CmdChild.ThreadFn (.value (.ok ())) "t" w8Out none false).wait_with_output).2
            = .value (.error e))
        ∧ (PanicOr.value (α := Except IOErr Unit) (.ok ()) = .value (.ok ()) →
          ((CmdChild.ThreadFn (.value (.ok ())) "t" w8Out none false).wait_with_output).2
            = .value (.ok buf)))
    ∧ (∀ e, readToEnd w8Out = .error e →
        ((CmdChild.ThreadFn (.value (.ok ())) "t" w8Out none false).wait_with_output).2
          = .value (.error e))
    ∧ (∀ buf, ((CmdChild.ThreadFn (.value (.ok ())) "t" w8Out none false).wait_with_output).2
          = .value (.ok buf) →
        PanicOr.value (α := Except IOErr Unit) (.ok ()) = .value (.ok ())
          ∧ readToEnd w8Out = .ok buf) :=
  c8_thread_capture (.value (.ok ())) "t" w8Out none false

/-- C9: `wait_with_pipe` on a pipeline whose terminal stage is a background
task panics ("should not wait pipe on thread") before invoking the callback
or waiting anything — it never returns a value, an error or success. -/
theorem c9_pipe_on_thread_panics (env : Option String) (cs : List CmdChild)
    (join : PanicOr (Except IOErr Unit)) (cmd : String) (stdout : Option PipeReader)
    (stderr : Option (List String)) (ig : Bool) :
    wait_with_pipe env (cs ++ [CmdChild.ThreadFn join cmd stdout stderr ig])
      = (Trace.nil, .panic "should not wait pipe on thread") := by
  simp only [wait_with_pipe, List.getLast?_concat, List.dropLast_concat]

theorem wait_no_callbacks (c : CmdChild) (b : Bool) (env : Option String) :
    (c.wait b env).1.callbacks = [] ∧ (c.wait b env).1.kills = [] := by
  cases c with
  | Proc child cmd stderr ig =>
    simp only [CmdChild.wait]
    cases child.waitResult with
    | error e => exact ⟨rfl, rfl⟩
    | ok status =>
      simp only []
      split
      · exact ⟨rfl, rfl⟩
      · exact ⟨rfl, rfl⟩
  | ThreadFn child cmd stdout stderr ig =>
    simp only [CmdChild.wait]
    split
    · exact ⟨rfl, rfl⟩
    · cases child with
      | panic m =>
        simp only []
        split
        · exact ⟨rfl, rfl⟩
        · exact ⟨rfl, rfl⟩
      | value r =>
        cases r with
        | error e =>
          simp only []
          split
          · exact ⟨rfl, rfl⟩
          · exact ⟨rfl, rfl⟩
        | ok u => exact ⟨rfl, rfl⟩
  | SyncFn cmd stdout stderr => exact ⟨rfl, rfl⟩

theorem waitChildrenRev_no_callbacks (env : Option String) (l : List CmdChild) :
    (waitChildrenRev env l).2.1.callbacks = []
    ∧ (waitChildrenRev env l).2.1.kills = [] := by
  induction l with
  | nil => exact ⟨rfl, rfl⟩
  | cons c rest ih =>
    simp only [waitChildrenRev]
    rcases hc : c.wait false env with ⟨t, r⟩
    have hnc := wait_no_callbacks c false env
    rw [hc] at hnc
    cases r with
    | error e => exact hnc
    | ok u =>
      rcases h2 : waitChildrenRev env rest with ⟨rem, t2, r2⟩
      rw [h2] at ih
      simp only []
      refine ⟨?_, ?_⟩
      · show t.callbacks ++ t2.callbacks = []
        rw [hnc.1, ih.1]
        rfl
      · show t.kills ++ t2.kills = []
        rw [hnc.2, ih.2]
        rfl

/-- C10: `wait_with_pipe` on a process terminal stage whose stdout is absent
never invokes the callback and never kills the process; it joins the stderr
drain, best-effort-waits the remaining stages in reverse insertion order
(stopping at the first cleanup failure, errors discarded), and always returns
without surfacing an error. -/
theorem c10_pipe_absent_stdout (env : Option String) (cs : List CmdChild)
    (child : ProcHandle) (cmd : String) (stderr : Option (List String)) (ig : Bool)
    (h : child.stdout = none) :
    (wait_with_pipe env (cs ++ [CmdChild.Proc child cmd stderr ig])).1.callbacks = []
    ∧ (wait_with_pipe env (cs ++ [CmdChild.Proc child cmd stderr ig])).1.kills = []
    ∧ (wait_with_pipe env (cs ++ [CmdChild.Proc child cmd stderr ig])).1
        = { info := drainLines stderr } ++ (waitRemClaim env cs.reverse).1
    ∧ ∃ rem, (wait_with_pipe env (cs ++ [CmdChild.Proc child cmd stderr ig])).2
        = .value rem := by
  rcases hrec : waitChildrenRev env cs.reverse with ⟨remRev, t2, r2⟩
  have hcl := waitChildrenRev_eq_claim env cs.reverse
  rw [hrec] at hcl
  have ht2 : (waitRemClaim env cs.reverse).1 = t2 := by rw [← hcl]
  have hpipe : wait_with_pipe env (cs ++ [CmdChild.Proc child cmd stderr ig])
      = (({} : Trace) ++ { info := drainLines stderr } ++ t2, .value remRev.reverse) := by
    simp only [wait_with_pipe, List.getLast?_concat, List.dropLast_concat, h, hrec]
  have hnc := waitChildrenRev_no_callbacks env cs.reverse
  rw [hrec] at hnc
  rw [hpipe, ht2]
  refine ⟨?_, ?_, by rfl, ⟨remRev.reverse, rfl⟩⟩
  · show [] ++ [] ++ t2.callbacks = []
    rw [hnc.1]
    rfl
  · show [] ++ [] ++ t2.kills = []
    rw [hnc.2]
    rfl

theorem c10_pipe_absent_stdout_witness :
    (wait_with_pipe none ([] ++ [CmdChild.Proc w10Handle "p" none false])).1.callbacks = []
    ∧ (wait_with_pipe none ([] ++ [CmdChild.Proc w10Handle "p" none false])).1.kills = []
    ∧ (wait_with_pipe none ([] ++ [CmdChild.Proc w10Handle "p" none false])).1
        = { info := drainLines none } ++ (waitRemClaim none ([] : List CmdChild).reverse).1
    ∧ ∃ rem, (wait_with_pipe none ([] ++ [CmdChild.Proc w10Handle "p" none false])).2
        = .value rem :=
  c10_pipe_absent_stdout none [] w10Handle "p" none false (by rfl)
